import Mathlib

/-!
Verification of the OCR extraction pipeline of the Guia repository
(backend/services/ocr_service.py) against its natural-language specification.

The Python source is shallowly embedded: floats become exact rationals (the
computable type Q below, with denominators kept positive by construction),
dict records become structures, fallible calls become Option, and the opaque
detection engine (EasyOCR) becomes an oracle parameter.  Every definition is
translated from the source file; the few definitions written from the
specification's words (for refinement comparisons) are marked as such in
their doc comments.
-/

set_option maxRecDepth 100000
set_option maxHeartbeats 2000000

namespace Guia

/-! ## Exact rationals with computable comparisons

Mathlib's normalised rationals do not reduce inside the kernel, so the
embedding carries unreduced fractions: a numerator and a denominator that is
positive for every value the pipeline constructs.  Comparisons are the usual
cross multiplications, correct whenever denominators are positive; toRat maps
into Mathlib's rationals for use in proofs only. -/

structure Q where
  num : ℤ
  den : ℤ
  deriving DecidableEq, Repr

def Q.ofInt (n : ℤ) : Q := ⟨n, 1⟩

def Q.ofNat (n : ℕ) : Q := ⟨(n : ℤ), 1⟩

/-- The fraction n / d (all uses have a positive literal d). -/
def Qmk (n d : ℤ) : Q := ⟨n, d⟩

def Q.add (a b : Q) : Q := ⟨a.num * b.den + b.num * a.den, a.den * b.den⟩

def Q.sub (a b : Q) : Q := ⟨a.num * b.den - b.num * a.den, a.den * b.den⟩

def Q.mul (a b : Q) : Q := ⟨a.num * b.num, a.den * b.den⟩

def Q.div (a b : Q) : Q :=
  if 0 < b.num then ⟨a.num * b.den, a.den * b.num⟩
  else if b.num < 0 then ⟨-(a.num * b.den), a.den * (-b.num)⟩
  else ⟨0, 1⟩

def Q.qabs (a : Q) : Q := ⟨(a.num.natAbs : ℤ), a.den⟩

def Q.le (a b : Q) : Bool := decide (a.num * b.den ≤ b.num * a.den)

def Q.lt (a b : Q) : Bool := decide (a.num * b.den < b.num * a.den)

/-- Value equality of two fractions (representation independent). -/
def Q.veq (a b : Q) : Bool := decide (a.num * b.den = b.num * a.den)

/-- Python max on two floats (returns the first argument on ties). -/
def Q.pyMax (a b : Q) : Q := if Q.lt a b then b else a

/-- Python int() on a float: truncation toward zero (denominator positive). -/
def Q.toInt (a : Q) : ℤ := a.num.tdiv a.den

/-- Well-formedness: the denominator is positive. -/
def Q.pos (a : Q) : Prop := 0 < a.den

instance (a : Q) : Decidable a.pos := by unfold Q.pos; infer_instance

/-- Semantics of a fraction as a Mathlib rational (proof use only). -/
def Q.toRat (a : Q) : ℚ := (a.num : ℚ) / (a.den : ℚ)

theorem Q.sub_pos {a b : Q} (ha : a.pos) (hb : b.pos) : (Q.sub a b).pos :=
  mul_pos ha hb

theorem Q.qabs_pos {a : Q} (ha : a.pos) : (Q.qabs a).pos := ha

theorem Q.div_pos_den {a : Q} (b : Q) (ha : a.pos) : (Q.div a b).pos := by
  unfold Q.div Q.pos at *
  split
  · exact mul_pos ha (by assumption)
  · split
    · exact mul_pos ha (by omega)
    · exact one_pos

theorem Q.le_toRat (a b : Q) (ha : a.pos) (hb : b.pos) :
    Q.le a b = true ↔ a.toRat ≤ b.toRat := by
  have ha' : (0 : ℚ) < (a.den : ℚ) := by exact_mod_cast ha
  have hb' : (0 : ℚ) < (b.den : ℚ) := by exact_mod_cast hb
  simp only [Q.le, decide_eq_true_eq, Q.toRat]
  rw [div_le_div_iff₀ ha' hb']
  constructor
  · intro h; exact_mod_cast h
  · intro h; exact_mod_cast h

theorem Q.toRat_sub (a b : Q) (ha : a.pos) (hb : b.pos) :
    (Q.sub a b).toRat = a.toRat - b.toRat := by
  have ha' : ((a.den : ℚ)) ≠ 0 := by
    have h1 : (0 : ℚ) < (a.den : ℚ) := by exact_mod_cast ha
    exact h1.ne'
  have hb' : ((b.den : ℚ)) ≠ 0 := by
    have h1 : (0 : ℚ) < (b.den : ℚ) := by exact_mod_cast hb
    exact h1.ne'
  unfold Q.sub Q.toRat
  push_cast
  field_simp
  ring

theorem Q.toRat_qabs (a : Q) (ha : a.pos) : (Q.qabs a).toRat = |a.toRat| := by
  have ha' : (0 : ℚ) < (a.den : ℚ) := by exact_mod_cast ha
  unfold Q.qabs Q.toRat
  rw [abs_div, abs_of_pos ha', Int.cast_natAbs]
  norm_cast

/-- Comparisons of the form |x - y| <= t only depend on the value of y, not
its representation (all denominators positive). -/
theorem Q.le_qabs_sub_congr (x t y y' : Q) (hx : x.pos) (ht : t.pos)
    (hy : y.pos) (hy' : y'.pos) (h : y.toRat = y'.toRat) :
    Q.le (Q.qabs (Q.sub x y)) t = Q.le (Q.qabs (Q.sub x y')) t := by
  apply Bool.eq_iff_iff.mpr
  rw [Q.le_toRat _ _ (Q.qabs_pos (Q.sub_pos hx hy)) ht,
    Q.le_toRat _ _ (Q.qabs_pos (Q.sub_pos hx hy')) ht,
    Q.toRat_qabs _ (Q.sub_pos hx hy), Q.toRat_qabs _ (Q.sub_pos hx hy'),
    Q.toRat_sub _ _ hx hy, Q.toRat_sub _ _ hx hy', h]

/-- Sum of a list of fractions (Python sum, left fold from 0). -/
def sumQ (l : List Q) : Q := l.foldl Q.add ⟨0, 1⟩

theorem sumQ_pos_aux (l : List Q) :
    ∀ acc : Q, acc.pos → (∀ x ∈ l, x.pos) → (l.foldl Q.add acc).pos := by
  induction l with
  | nil => intro acc hacc _; exact hacc
  | cons x xs ih =>
    intro acc hacc h
    exact ih (Q.add acc x) (mul_pos hacc (h x (by simp)))
      (fun y hy => h y (by simp [hy]))

theorem sumQ_pos (l : List Q) (h : ∀ x ∈ l, x.pos) : (sumQ l).pos :=
  sumQ_pos_aux l ⟨0, 1⟩ one_pos h

/-! ## Basic Python-semantics utilities -/

/-- Whitespace characters recognised by Python's str.strip and the regex
class backslash-s (ASCII subset, which covers every string this pipeline
handles). -/
def pySpace (c : Char) : Bool :=
  c = ' ' || c = '\t' || c = '\n' || c = '\x0d' || c = '\x0b' || c = '\x0c'

/-- Python str.strip on a character list. -/
def stripChars (l : List Char) : List Char :=
  ((l.dropWhile pySpace).reverse.dropWhile pySpace).reverse

/-- Python str.strip. -/
def pyStrip (s : String) : String := ⟨stripChars s.toList⟩

/-- Accented lowercase Spanish characters appearing in the source's regexes,
paired with their uppercase forms for Python str.upper. -/
def accentUpper (c : Char) : Char :=
  if c = 'á' then 'Á' else if c = 'é' then 'É' else if c = 'í' then 'Í'
  else if c = 'ó' then 'Ó' else if c = 'ú' then 'Ú' else if c = 'ñ' then 'Ñ'
  else if c = 'ü' then 'Ü' else c

/-- Python str.upper restricted to the alphabet this document family uses
(ASCII plus the Spanish accented letters that occur in the source). -/
def pyUpperChar (c : Char) : Char :=
  if c.isLower then c.toUpper else accentUpper c

/-- Python str.upper on a whole string. -/
def pyUpper (s : String) : String := ⟨s.toList.map pyUpperChar⟩

/-- Substring containment on character lists (Python's in operator on str). -/
def hasSubChars (needle : List Char) : List Char → Bool
  | [] => needle.isEmpty
  | c :: cs => needle.isPrefixOf (c :: cs) || hasSubChars needle cs

/-- Python needle-in-hay containment for strings. -/
def strContains (hay needle : String) : Bool :=
  hasSubChars needle.toList hay.toList

/-- Stable insertion into a list sorted by the boolean relation. Inserting
after existing equal elements reproduces Python's stable list.sort. -/
def insertStable {α : Type} (le : α → α → Bool) (a : α) : List α → List α
  | [] => [a]
  | b :: bs => if le b a then b :: insertStable le a bs else a :: b :: bs

/-- Stable sort (insertion sort), modelling Python list.sort with a key. -/
def stableSort {α : Type} (le : α → α → Bool) (l : List α) : List α :=
  l.foldl (fun acc a => insertStable le a acc) []

theorem mem_insertStable {α : Type} (le : α → α → Bool) (a x : α) :
    ∀ l : List α, x ∈ insertStable le a l ↔ x = a ∨ x ∈ l := by
  intro l
  induction l with
  | nil => simp [insertStable]
  | cons b bs ih =>
    simp only [insertStable]
    split
    · simp only [List.mem_cons, ih]
      tauto
    · simp only [List.mem_cons]

theorem mem_stableSort {α : Type} (le : α → α → Bool) (l : List α) (x : α) :
    x ∈ stableSort le l ↔ x ∈ l := by
  suffices h : ∀ (l acc : List α),
      x ∈ l.foldl (fun acc a => insertStable le a acc) acc ↔ x ∈ acc ∨ x ∈ l by
    have := h l []
    simpa [stableSort] using this
  intro l
  induction l with
  | nil => intro acc; simp
  | cons b bs ih =>
    intro acc
    simp only [List.foldl, ih, mem_insertStable, List.mem_cons]
    tauto

/-- Python truthiness of an optional string (None and the empty string are
falsy). -/
def optTruthy : Option String → Bool
  | none => false
  | some s => !s.toList.isEmpty

/-- Python truthiness of an optional float (None and 0.0 are falsy). -/
def optQTruthy : Option Q → Bool
  | none => false
  | some q => !(Q.veq q (Q.ofInt 0))

/-! ## Data model: one raw text detection after the adapter

One entry of the details list built in extract_text_from_image: the
detector's text plus the derived box coordinates. -/

structure Detection where
  text : String
  confidence : Q
  y_center : Q
  y_top : Q
  y_bottom : Q
  x_left : Q
  x_center : Q
  height : Q
  deriving DecidableEq, Repr

/-- Well-formedness of a detection: the coordinates the clustering walk uses
have positive denominators (true of everything the adapter builds). -/
def Detection.wf (d : Detection) : Prop := d.y_center.pos ∧ d.height.pos

instance (d : Detection) : Decidable d.wf := by unfold Detection.wf; infer_instance

/-- Mean y_center of a list of detections (sum over length, as the source
recomputes it after every join). -/
def meanY (l : List Detection) : Q :=
  Q.div (sumQ (l.map (·.y_center))) (Q.ofNat l.length)

theorem meanY_pos (l : List Detection) (h : ∀ d ∈ l, d.y_center.pos) :
    (meanY l).pos :=
  Q.div_pos_den _ (sumQ_pos _ (by
    intro x hx
    obtain ⟨d, hd, rfl⟩ := List.mem_map.mp hx
    exact h d hd))

theorem meanY_single_toRat (d : Detection) (_h : d.y_center.pos) :
    (meanY [d]).toRat = d.y_center.toRat := by
  show (Q.div (Q.add ⟨0, 1⟩ d.y_center) (Q.ofNat 1)).toRat = _
  simp only [Q.div, Q.add, Q.ofNat]
  norm_num

/-- Sort detections by y_center ascending (details.sort with key y_center). -/
def sortByY (l : List Detection) : List Detection :=
  stableSort (fun a b => Q.le a.y_center b.y_center) l

/-- Sort detections by x_left ascending (line.sort with key x_left). -/
def sortByX (l : List Detection) : List Detection :=
  stableSort (fun a b => Q.le a.x_left b.x_left) l

/-! ## Line reconstruction (extract_text_from_image, lines 165-208)

The walk keeps the current line buffer and the running y value exactly as the
Python loop does: current_y starts at the first member's y_center and is reset
to the mean over all members after each join. -/

/-- The grouping walk as written in the source: cur is current_line, y is
current_y. -/
def walkCode (tol : Q) (cur : List Detection) (y : Q) :
    List Detection → List (List Detection)
  | [] => [cur]
  | d :: ds =>
    if Q.le (Q.qabs (Q.sub d.y_center y)) tol then
      walkCode tol (cur ++ [d]) (meanY (cur ++ [d])) ds
    else
      cur :: walkCode tol [d] d.y_center ds

/-- Group y-sorted detections into lines (the loop of lines 179-201). -/
def buildLines (tol : Q) : List Detection → List (List Detection)
  | [] => []
  | d :: ds => walkCode tol [d] d.y_center ds

/-- One closed line's text: members sorted by x_left, texts joined by single
spaces. -/
def lineText (line : List Detection) : String :=
  String.intercalate " " ((sortByX line).map (·.text))

/-- Tolerance for one page: 0.6 times the mean detection height. -/
def pageTolerance (details : List Detection) : Q :=
  Q.mul (Q.div (sumQ (details.map (·.height))) (Q.ofNat details.length)) (Qmk 3 5)

theorem pageTolerance_pos (details : List Detection)
    (h : ∀ d ∈ details, d.height.pos) : (pageTolerance details).pos := by
  apply mul_pos
  · exact Q.div_pos_den _ (sumQ_pos _ (by
      intro x hx
      obtain ⟨d, hd, rfl⟩ := List.mem_map.mp hx
      exact h d hd))
  · exact (by decide : (0:ℤ) < 5)

/-- The reconstructed line strings of one page (extract_text_from_image). -/
def extractLines (details : List Detection) : List String :=
  match details with
  | [] => []
  | _ =>
    (buildLines (pageTolerance details) (sortByY details)).map lineText

/-- Full page text: line strings joined by newlines. -/
def pageText (details : List Detection) : String :=
  String.intercalate "\n" (extractLines details)

/-- Modelled from the spec's words (section 4.3): the walk tests each
detection against the mean y_center recomputed over the whole current buffer,
with no separate running state. -/
def walkSpec (tol : Q) (cur : List Detection) :
    List Detection → List (List Detection)
  | [] => [cur]
  | d :: ds =>
    if Q.le (Q.qabs (Q.sub d.y_center (meanY cur))) tol then
      walkSpec tol (cur ++ [d]) ds
    else
      cur :: walkSpec tol [d] ds

/-- Modelled from the spec's words: the grouping of the sorted detections. -/
def specGroup (tol : Q) : List Detection → List (List Detection)
  | [] => []
  | d :: ds => walkSpec tol [d] ds

/-- Modelled from the spec's words: sort by y_center, walk with the
recomputed mean, then sort each closed line by x_left and join with single
spaces. -/
def specLines (details : List Detection) : List String :=
  match details with
  | [] => []
  | _ =>
    (specGroup (pageTolerance details) (sortByY details)).map lineText

theorem walkCode_eq_walkSpec (tol : Q) (htol : tol.pos) :
    ∀ (ds cur : List Detection) (y : Q),
      (∀ d ∈ ds, d.y_center.pos) → (∀ d ∈ cur, d.y_center.pos) →
      y.pos → y.toRat = (meanY cur).toRat →
      walkCode tol cur y ds = walkSpec tol cur ds := by
  intro ds
  induction ds with
  | nil => intro cur y _ _ _ _; rfl
  | cons d ds ih =>
    intro cur y hds hcur hy hmean
    have hd : d.y_center.pos := hds d (by simp)
    have hds' : ∀ e ∈ ds, e.y_center.pos := fun e he => hds e (by simp [he])
    have hmcur : (meanY cur).pos := meanY_pos cur hcur
    have hcond : Q.le (Q.qabs (Q.sub d.y_center y)) tol
        = Q.le (Q.qabs (Q.sub d.y_center (meanY cur))) tol :=
      Q.le_qabs_sub_congr _ _ _ _ hd htol hy hmcur hmean
    simp only [walkCode, walkSpec, hcond]
    by_cases h : Q.le (Q.qabs (Q.sub d.y_center (meanY cur))) tol = true
    · simp only [h, if_true]
      have hcur' : ∀ e ∈ cur ++ [d], e.y_center.pos := by
        intro e he
        rcases List.mem_append.mp he with h1 | h1
        · exact hcur e h1
        · have he' : e = d := by simpa using h1
          subst he'
          exact hd
      exact ih (cur ++ [d]) (meanY (cur ++ [d])) hds' hcur'
        (meanY_pos _ hcur') rfl
    · rw [Bool.not_eq_true] at h
      simp only [h, if_false]
      have hsingle : ∀ e ∈ [d], e.y_center.pos := by
        intro e he
        have he' : e = d := by simpa using he
        subst he'
        exact hd
      rw [ih [d] d.y_center hds' hsingle hd (meanY_single_toRat d hd).symm]
      rfl

theorem extractLines_eq_specLines (details : List Detection)
    (h : ∀ d ∈ details, d.wf) : extractLines details = specLines details := by
  cases hd : details with
  | nil => rfl
  | cons d ds =>
    subst hd
    simp only [extractLines, specLines]
    have hwfy : ∀ e ∈ sortByY (d :: ds), e.y_center.pos := by
      intro e he
      exact (h e ((mem_stableSort _ _ _).mp he)).1
    have htol : (pageTolerance (d :: ds)).pos :=
      pageTolerance_pos _ (fun e he => (h e he).2)
    cases hs : sortByY (d :: ds) with
    | nil => rfl
    | cons e es =>
      simp only [buildLines, specGroup]
      have hmem : ∀ x ∈ e :: es, x.y_center.pos := by
        intro x hx
        apply hwfy
        rw [hs]
        exact hx
      have he : e.y_center.pos := hmem e (by simp)
      have hes : ∀ x ∈ es, x.y_center.pos := by
        intro x hx
        exact hmem x (by simp [hx])
      have hsingle : ∀ x ∈ [e], x.y_center.pos := by
        intro x hx
        have hx' : x = e := by simpa using hx
        subst hx'
        exact he
      exact congrArg _ (walkCode_eq_walkSpec _ htol es [e] e.y_center hes
        hsingle he (meanY_single_toRat e he).symm)

/-- Concrete detections exhibiting running-mean drift: heights 20 everywhere
give tolerance 12; B joins A at distance exactly 12, the mean moves to 106,
and C at 117 then joins even though it is 17 away from A. -/
def detA : Detection :=
  { text := "A", confidence := ⟨1, 1⟩, y_center := ⟨100, 1⟩, y_top := ⟨90, 1⟩,
    y_bottom := ⟨110, 1⟩, x_left := ⟨0, 1⟩, x_center := ⟨5, 1⟩, height := ⟨20, 1⟩ }

def detB : Detection :=
  { text := "B", confidence := ⟨1, 1⟩, y_center := ⟨112, 1⟩, y_top := ⟨102, 1⟩,
    y_bottom := ⟨122, 1⟩, x_left := ⟨10, 1⟩, x_center := ⟨15, 1⟩, height := ⟨20, 1⟩ }

def detC : Detection :=
  { text := "C", confidence := ⟨1, 1⟩, y_center := ⟨117, 1⟩, y_top := ⟨107, 1⟩,
    y_bottom := ⟨127, 1⟩, x_left := ⟨20, 1⟩, x_center := ⟨25, 1⟩, height := ⟨20, 1⟩ }

/-- C3: line reconstruction sorts detections by y_center, walks them joining a
detection iff its y_center is within 0.6 times the page-average height of the
running mean, recomputes the mean over all members after each join (so a
detection can join through drift while being outside tolerance of the line's
first member), and renders closed lines sorted by x_left joined with single
spaces.  The first conjunct is the refinement of the code's walk to the
spec-worded walk; the remaining conjuncts exhibit the drift on a concrete
page whose tolerance is 12. -/
theorem C3_line_reconstruction :
    (∀ details : List Detection, (∀ d ∈ details, d.wf) →
      extractLines details = specLines details) ∧
    extractLines [detA, detB, detC] = ["A B C"] ∧
    Q.veq (pageTolerance [detA, detB, detC]) (Q.ofInt 12) = true ∧
    Q.le (Q.qabs (Q.sub detC.y_center (meanY [detA, detB])))
      (pageTolerance [detA, detB, detC]) = true ∧
    Q.le (Q.qabs (Q.sub detC.y_center detA.y_center))
      (pageTolerance [detA, detB, detC]) = false := by
  refine ⟨extractLines_eq_specLines, ?_, ?_, ?_, ?_⟩ <;> decide

/-- Witness for C3: the refinement instantiated at the concrete drift page. -/
theorem C3_line_reconstruction_witness :
    extractLines [detA, detB, detC] = specLines [detA, detB, detC] :=
  C3_line_reconstruction.1 [detA, detB, detC] (by decide)

/-! ## Code normalization (_normalize_code, lines 406-422)

The source takes the maximal run of ASCII uppercase letters as the prefix
(regex anchored on a run of capitals) and rewrites O to 0 only in the
remaining suffix. -/

def normalizeCode (code : String) : String :=
  let chars := code.toList
  let pre := chars.takeWhile (fun c => c.isUpper)
  if pre.isEmpty then code
  else ⟨pre ++ (chars.drop pre.length).map (fun c => if c = 'O' then '0' else c)⟩

/-- C4: the claim (and the source's own docstring) promise
normalize("PROZO7O") = "PROZ070" and normalize("POPO142") = "POP0142", but the
implementation's maximal-alphabetic-prefix regex swallows the ambiguous O
characters into the prefix, leaving them untouched: it returns "PROZO70" and
"POPO142" respectively. -/
theorem C4_normalize_code_bug :
    normalizeCode "PROZO7O" = "PROZO70" ∧ ("PROZO70" : String) ≠ "PROZ070" ∧
    normalizeCode "POPO142" = "POPO142" ∧ ("POPO142" : String) ≠ "POP0142" := by
  refine ⟨?_, ?_, ?_, ?_⟩ <;> decide

/-! ## String helpers shared by the extractors -/

def strTake (s : String) (n : ℕ) : String := ⟨s.toList.take n⟩

def strDrop (s : String) (n : ℕ) : String := ⟨s.toList.drop n⟩

def strStartsWith (s pre : String) : Bool := pre.toList.isPrefixOf s.toList

/-- re.sub of 0 by O over a whole code (codigo_with_O, line 384). -/
def zeroToO (s : String) : String :=
  ⟨s.toList.map (fun c => if c = '0' then 'O' else c)⟩

/-- Python text.split with a newline separator (keeps empty pieces). -/
def splitLinesAux : List Char → List Char → List String
  | [], cur => [⟨cur.reverse⟩]
  | c :: cs, cur =>
    if c = '\n' then (⟨cur.reverse⟩ : String) :: splitLinesAux cs []
    else splitLinesAux cs (c :: cur)

def splitNl (s : String) : List String := splitLinesAux s.toList []

/-! ## Regex predicates of the table extractor

Each definition decides one of the source's anchored regular expressions;
bounded existentials over the quantifier ranges coincide with the regex
engine's backtracking for these match tests. -/

/-- The character class of O or a digit the code patterns use for the numeric
suffix (OCR confuses O with 0). -/
def isCodeClass (c : Char) : Bool := c = 'O' || c.isDigit

/-- Full match of 6 to 8 digits. -/
def matchNumCode (s : String) : Bool :=
  let l := s.toList
  decide (6 ≤ l.length) && decide (l.length ≤ 8) && l.all (·.isDigit)

/-- Full match of 2-4 capitals followed by 3-6 suffix-class characters. -/
def matchAlphaCode (s : String) : Bool :=
  let l := s.toList
  [2, 3, 4].any fun a =>
    decide (a + 3 ≤ l.length) && decide (l.length ≤ a + 6) &&
    (l.take a).all (·.isUpper) && (l.drop a).all isCodeClass

/-- Full match of PRO, one capital, three suffix-class characters. -/
def matchProCode (s : String) : Bool :=
  let l := s.toList
  decide (l.length = 7) && "PRO".toList.isPrefixOf l &&
  (match l.drop 3 with
   | c :: rest => c.isUpper && rest.all isCodeClass
   | [] => false)

/-- Full match of PROP followed by three suffix-class characters. -/
def matchPropCode (s : String) : Bool :=
  let l := s.toList
  decide (l.length = 7) && "PROP".toList.isPrefixOf l && (l.drop 4).all isCodeClass

/-- Anchored prefix match of 2-4 capitals, 2-4 suffix-class characters, at
least one whitespace, then a capital (the concatenated-code hint of line
319). -/
def matchConcatHint (s : String) : Bool :=
  let l := s.toList
  [2, 3, 4].any fun a =>
    decide ((l.take a).length = a) && (l.take a).all (·.isUpper) &&
    ([2, 3, 4].any fun b =>
      let m := l.drop a
      decide ((m.take b).length = b) && (m.take b).all isCodeClass &&
      (let rest := m.drop b
       let w := rest.takeWhile pySpace
       decide (1 ≤ w.length) &&
       (match rest.dropWhile pySpace with
        | c :: _ => c.isUpper
        | [] => false)))

/-- The remainder check of the captured-code pattern of line 351: at least one
whitespace character and then at least one character matched by a dot
(anything but a newline), with the engine's backtracking over the whitespace
count. -/
def restOk (r : List Char) : Bool :=
  let m := (r.takeWhile pySpace).length
  decide (1 ≤ m) &&
  (!(r.drop m).isEmpty || ((r.take m).drop 1).any (fun c => c ≠ '\n'))

/-- Anchored match of the capture group of 2-4 capitals and 3-6 suffix-class
characters followed by whitespace and a nonempty rest (line 351); returns the
group's length, with the engine's greedy order: longest capital run first,
then longest class run. -/
def matchCodeConcatLen (l : List Char) : Option ℕ :=
  [4, 3, 2].findSome? fun a =>
    if decide ((l.take a).length = a) && (l.take a).all (·.isUpper) then
      [6, 5, 4, 3].findSome? fun b =>
        let m := l.drop a
        if decide ((m.take b).length = b) && (m.take b).all isCodeClass &&
            restOk (m.drop b) then
          some (a + b)
        else none
    else none

/-- Full match of 1 to 3 digits. -/
def matchQty (s : String) : Bool :=
  let l := s.toList
  decide (1 ≤ l.length) && decide (l.length ≤ 3) && l.all (·.isDigit)

/-- Full match of a single row-number digit 1-5. -/
def matchRowNum (s : String) : Bool :=
  match s.toList with
  | [c] => c = '1' || c = '2' || c = '3' || c = '4' || c = '5'
  | _ => false

/-- The fixed unit abbreviation set of lines 364 and 654-737. -/
def unitsList : List String := ["NIU", "UND", "UN", "PZA", "KG", "LT", "CJ"]

/-- Footer markers ending the coordinate table (line 325). -/
def tableFooterMarkers : List String :=
  ["OBSERV", "P#M", "PRM", "PAM", "WWW", "REPRESENTACIÓN"]

/-- Footer markers ending the flat-text product scan (line 644). -/
def flatFooterMarkers : List String :=
  ["P#M", "P&M", "PAM", "PRM", "OBSERV", "WWW.", "REPRESENTACIÓN"]

/-! ## Secondary quantity OCR (_ocr_cantidad_zone, lines 424-497)

The image content is opaque: an oracle maps the crop request (the zone
bounds and the 3x upscale) and the binarization strategy to the digit-
restricted detector output, none standing for a raised exception. -/

inductive BinStrategy where
  | otsu
  | adaptive
  | fixed127
  | raw
  deriving DecidableEq, Repr

/-- The fixed order of the four binarization attempts (lines 461-470):
global-optimal threshold, adaptive local threshold, fixed mid-level
threshold, no binarization. -/
def strategyOrder : List BinStrategy :=
  [BinStrategy.otsu, BinStrategy.adaptive, BinStrategy.fixed127, BinStrategy.raw]

structure ZoneQuery where
  yTop : ℤ
  yBottom : ℤ
  xStart : ℤ
  xEnd : ℤ
  scale : ℕ
  deriving DecidableEq, Repr

/-- The page frame handed to the zone OCR; only its pixel height enters the
crop arithmetic. -/
structure ImageInfo where
  height : ℤ
  deriving DecidableEq, Repr

def ZoneOracle : Type := ZoneQuery → BinStrategy → Option (List String)

/-- Python min over a nonempty float list (first minimum kept). -/
def minQList (x : Q) (l : List Q) : Q :=
  l.foldl (fun acc v => if Q.lt v acc then v else acc) x

/-- Python max over a nonempty float list (first maximum kept). -/
def maxQList (x : Q) (l : List Q) : Q :=
  l.foldl (fun acc v => if Q.lt acc v then v else acc) x

/-- The inner scan of one strategy's results: first stripped text that is 1-3
digits (lines 483-487). -/
def innerScan : List String → Option String
  | [] => none
  | t :: ts =>
    let t' := pyStrip t
    if matchQty t' then some t' else innerScan ts

/-- The strategy loop as the source writes it: a try per strategy (a raised
strategy is skipped) and the inner text scan, returning at the first hit. -/
def scanCode (oracle : ZoneOracle) (zq : ZoneQuery) : List BinStrategy → Option String
  | [] => none
  | st :: rest =>
    match oracle zq st with
    | none => scanCode oracle zq rest
    | some texts =>
      match innerScan texts with
      | some t => some t
      | none => scanCode oracle zq rest

/-- The crop bounds of the quantity zone (lines 429-444) and the scan. -/
def ocrCantidadZone (img : ImageInfo) (oracle : ZoneOracle) (row : List Detection)
    (cx : Q) (wid : ℕ) : Option String :=
  match row with
  | [] => none
  | r0 :: rs =>
    let yTopF := Q.sub (minQList r0.y_top (rs.map (·.y_top))) (Qmk 10 1)
    let yBotF := Q.add (maxQList r0.y_bottom (rs.map (·.y_bottom))) (Qmk 10 1)
    let xs := max 0 (Q.toInt (Q.sub cx (Qmk 80 1)))
    let xe := min (Q.toInt (Q.add cx (Qmk 120 1))) (wid : ℤ)
    let yt := max 0 (Q.toInt yTopF)
    let yb := min img.height (Q.toInt yBotF)
    if yb ≤ yt || xe ≤ xs then none
    else scanCode oracle ⟨yt, yb, xs, xe, 3⟩ strategyOrder

/-- Modelled from the spec's words (section 4.4 step 6): the four strategies
tried in their fixed order, stopping at the first whose digit-restricted
results contain a 1-3 digit token, that token being the first such result. -/
def specZoneScan (oracle : ZoneOracle) (zq : ZoneQuery) : Option String :=
  strategyOrder.findSome? fun st =>
    (oracle zq st).bind fun texts => (texts.map pyStrip).find? matchQty

/-! ## Coordinate table extractor (extract_productos_from_table, lines 216-404) -/

structure LineItem where
  nro : String
  codigo : String
  nombre : String
  unidad : String
  cantidad : String
  deriving DecidableEq, Repr

/-- The mutable locals of the row loop of lines 330-375. -/
structure RowParse where
  codigo : Option String
  descParts : List String
  unidad : Option String
  cantidad : Option String
  deriving DecidableEq, Repr

/-- The second if-chain of the token loop (lines 363-375): unit, quantity,
description. -/
def secondChain (cx : Option Q) (wid : ℕ) (st : RowParse) (text : String)
    (xPos : Q) : RowParse :=
  if unitsList.contains (pyUpper text) then
    { st with unidad := some (pyUpper text) }
  else if matchQty text then
    match cx with
    | some cxv =>
      if !(Q.veq cxv (Q.ofInt 0)) &&
          Q.lt (Q.qabs (Q.sub xPos cxv)) (Q.mul (Q.ofNat wid) (Qmk 1 10)) then
        { st with cantidad := some text }
      else if !(optTruthy st.cantidad) then { st with cantidad := some text }
      else st
    | none =>
      if !(optTruthy st.cantidad) then { st with cantidad := some text } else st
  else if !(matchRowNum text) && decide (2 < text.length) &&
      (match st.codigo with
       | none => true
       | some c => decide (pyUpper text ≠ c)) then
    { st with descParts := st.descParts ++ [text] }
  else st

/-- One token of the row loop (lines 336-375): the code chain (with its
continue on a captured concatenated code) followed by the second chain. -/
def parseToken (cx : Option Q) (wid : ℕ) (st : RowParse) (d : Detection) : RowParse :=
  let text := pyStrip d.text
  let xPos := d.x_center
  if matchNumCode text then
    secondChain cx wid { st with codigo := some text } text xPos
  else if matchAlphaCode (pyUpper text) && decide (text.length ≤ 10) then
    secondChain cx wid { st with codigo := some (normalizeCode (pyUpper text)) } text xPos
  else if !(optTruthy st.codigo) then
    match matchCodeConcatLen (pyUpper text).toList with
    | some n =>
      let cod := normalizeCode (strTake (pyUpper text) n)
      let rest := pyStrip (strDrop text n)
      { st with codigo := some cod,
                descParts := if rest.toList.isEmpty then st.descParts
                             else st.descParts ++ [rest] }
    | none => secondChain cx wid st text xPos
  else secondChain cx wid st text xPos

/-- The fold over one sorted row's tokens with the initial empty locals. -/
def rowState (cx : Option Q) (wid : ℕ) (row : List Detection) : RowParse :=
  row.foldl (parseToken cx wid) ⟨none, [], none, none⟩

/-- Whether the row carries a product code (lines 306-321). -/
def rowHasCodigo (row : List Detection) : Bool :=
  row.any (fun d =>
    matchNumCode d.text || matchAlphaCode (pyUpper d.text) ||
    matchProCode (pyUpper d.text) || matchPropCode (pyUpper d.text)) ||
  row.any (fun d => matchConcatHint (pyUpper d.text))

/-- Whether the row text carries a table footer marker (line 325). -/
def rowFooter (rowText : String) : Bool :=
  tableFooterMarkers.any (fun m => strContains (pyUpper rowText) m)

structure RowOutcome where
  item : Option LineItem
  zoneUsed : Bool
  deriving DecidableEq, Repr

/-- Lines 330-402 for one matched row (already sorted by x_left): the token
fold, the code-and-unit guard, description cleanup, the guarded secondary
quantity pass, and the default quantity. -/
def processRow (cx : Option Q) (wid : ℕ) (img : Option ImageInfo)
    (oracle : ZoneOracle) (n : ℕ) (row : List Detection) : RowOutcome :=
  let st := rowState cx wid row
  if optTruthy st.codigo && optTruthy st.unidad then
    let codigo := st.codigo.getD ""
    let unidad := st.unidad.getD ""
    let desc0 := String.intercalate " " st.descParts
    let desc1 :=
      if strStartsWith (pyUpper desc0) codigo then
        pyStrip (strDrop desc0 codigo.length)
      else desc0
    let codigoWithO := zeroToO codigo
    let desc2 :=
      if strStartsWith (pyUpper desc1) codigoWithO then
        pyStrip (strDrop desc1 codigoWithO.length)
      else desc1
    let zoneStep : Option String × Bool :=
      if !(optTruthy st.cantidad) then
        match img, cx with
        | some im, some cxv =>
          if !(Q.veq cxv (Q.ofInt 0)) then
            (ocrCantidadZone im oracle row cxv wid, true)
          else (st.cantidad, false)
        | _, _ => (st.cantidad, false)
      else (st.cantidad, false)
    let cant :=
      if optTruthy zoneStep.1 then zoneStep.1.getD "" else "1"
    { item := some ⟨toString (n + 1), codigo, desc2, unidad, cant⟩,
      zoneUsed := zoneStep.2 }
  else { item := none, zoneUsed := false }

/-- The row loop of lines 297-402 with its footer break. -/
def processRows (cx : Option Q) (wid : ℕ) (img : Option ImageInfo)
    (oracle : ZoneOracle) : List (List Detection) → List LineItem → List LineItem
  | [], acc => acc
  | row :: rest, acc =>
    let sorted := sortByX row
    let rowText := String.intercalate " " (sorted.map (·.text))
    if rowHasCodigo sorted then
      match (processRow cx wid img oracle acc.length sorted).item with
      | some item => processRows cx wid img oracle rest (acc ++ [item])
      | none => processRows cx wid img oracle rest acc
    else if rowFooter rowText then acc
    else processRows cx wid img oracle rest acc

/-- Header search (lines 241-247): the first y-sorted detection whose
uppercased text contains the quantity keyword. -/
def findHeaderY (sorted : List Detection) : Option Q :=
  sorted.findSome? fun d =>
    if strContains (pyUpper d.text) "CANTIDAD" || strContains (pyUpper d.text) "CANT" then
      some d.y_center
    else none

/-- Column anchors from the header row (lines 256-265): last matching token
wins; quantity keyword takes priority over the unit keyword per token. -/
def headerAnchors (headerRow : List Detection) : Option Q × Option Q :=
  headerRow.foldl
    (fun acc d =>
      let tu := pyUpper d.text
      if strContains tu "CANTIDAD" || strContains tu "CANT" then
        (some d.x_center, acc.2)
      else if strContains tu "U/M" || strContains tu "UM" then
        (acc.1, some d.x_center)
      else acc)
    (none, none)

/-- Row clustering below the header (lines 269-292): detections strictly
below header_y, grouped with the page tolerance walk. -/
def buildRows (tol : Q) (headerY : Q) (sorted : List Detection) :
    List (List Detection) :=
  match sorted.filter (fun d => Q.lt headerY d.y_center) with
  | [] => []
  | d :: ds => walkCode tol [d] d.y_center ds

/-- extract_productos_from_table, lines 216-404. -/
def extractProductosFromTable (details : List Detection) (imageWidth : ℕ)
    (pageImage : Option ImageInfo) (oracle : ZoneOracle) : List LineItem :=
  if details.isEmpty then []
  else
    let tol := pageTolerance details
    let sorted := sortByY details
    match findHeaderY sorted with
    | none => []
    | some headerY =>
      let headerRow :=
        sortByX (sorted.filter (fun d => Q.le (Q.qabs (Q.sub d.y_center headerY)) tol))
      let cantidadX := (headerAnchors headerRow).1
      let rows := buildRows tol headerY sorted
      processRows cantidadX imageWidth pageImage oracle rows []

/-! ## Flat-text product extractor (extract_productos, lines 594-768)

The four per-line regex cascades carry lazy groups; they are abstracted as
matcher oracles (a quadruple of capture groups, or a triple for the pattern
without an explicit quantity), while the header search, footer break, line
filters, normalization, cleanup and dedup guard are concrete. -/

structure FlatMatchers where
  p0 : String → Option (String × String × String × String)
  p1 : String → Option (String × String × String × String)
  p2 : String → Option (String × String × String × String)
  p3 : String → Option (String × String × String)

/-- The description cleanup applied to a captured group: strip, remove a
leading 1-2 digit row number with its whitespace, collapse whitespace runs to
single spaces and strip again (lines 666-667 and twins). -/
def stripLeadDigits (l : List Char) : List Char :=
  let k := (l.takeWhile (·.isDigit)).length
  if decide (1 ≤ k) && decide (k ≤ 2) &&
      (match l.drop k with | c :: _ => pySpace c | [] => false) then
    (l.drop k).dropWhile pySpace
  else l

def collapseWS : Bool → List Char → List Char
  | _, [] => []
  | prev, c :: cs =>
    if pySpace c then
      if prev then collapseWS true cs else ' ' :: collapseWS true cs
    else c :: collapseWS false cs

def flatDescClean (g2 : String) : String :=
  pyStrip ⟨collapseWS false (stripLeadDigits (pyStrip g2).toList)⟩

/-- The guarded append every pattern block ends with: description longer than
3 characters and a code not already emitted (lines 669-676 and twins). -/
def tryEmit (acc : List LineItem) (codigo desc unidad cantidad : String) :
    List LineItem :=
  if decide (3 < desc.length) && !(acc.any (fun p => p.codigo == codigo)) then
    acc ++ [⟨toString (acc.length + 1), codigo, desc, unidad, cantidad⟩]
  else acc

/-- One line through the four-pattern cascade with first-match-wins
(lines 650-762). -/
def flatStep (ms : FlatMatchers) (acc : List LineItem) (line : String) :
    List LineItem :=
  match ms.p0 line with
  | some (g1, g2, g3, g4) =>
    tryEmit acc (normalizeCode (pyUpper g1)) (flatDescClean g2) (pyUpper g3) g4
  | none =>
    match ms.p1 line with
    | some (g1, g2, g3, g4) =>
      tryEmit acc g1 (flatDescClean g2) (pyUpper g3) g4
    | none =>
      match ms.p2 line with
      | some (g1, g2, g3, g4) =>
        tryEmit acc (normalizeCode (pyUpper g1)) (flatDescClean g2) (pyUpper g3) g4
      | none =>
        match ms.p3 line with
        | some (g1, g2, g3) =>
          let codigo :=
            match g1.toList with
            | c :: _ => if c.isAlpha then normalizeCode (pyUpper g1) else g1
            | [] => g1
          tryEmit acc codigo (flatDescClean g2) (pyUpper g3) "1"
        | none => acc

/-- Whether the stripped line carries a flat footer marker (line 644). -/
def flatFooter (line : String) : Bool :=
  flatFooterMarkers.any (fun m => strContains (pyUpper line) m)

/-- The header search of lines 612-631: the quantity keyword first, then the
unit keyword or the number-and-code pair, else start at line zero. -/
def flatStartIdx (lines : List String) : ℕ :=
  match lines.findIdx? (fun l => strContains (pyUpper l) "CANTIDAD") with
  | some i => i + 1
  | none =>
    match lines.findIdx? (fun l =>
        strContains (pyUpper l) "U/M" ||
        (strContains (pyUpper l) "NRO" && strContains (pyUpper l) "COD")) with
    | some i => i + 1
    | none => 0

/-- The per-line loop of lines 638-762 with its footer break. -/
def flatLoop (ms : FlatMatchers) : List String → List LineItem → List LineItem
  | [], acc => acc
  | l :: rest, acc =>
    let line := pyStrip l
    if decide (line.length < 5) then flatLoop ms rest acc
    else if flatFooter line then acc
    else flatLoop ms rest (flatStep ms acc line)

/-- extract_productos, lines 594-768. -/
def extractProductosFlat (ms : FlatMatchers) (text : String) : List LineItem :=
  let lines := splitNl text
  flatLoop ms (lines.drop (flatStartIdx lines)) []

/-! ## Concrete inputs and oracles used by the table-extractor theorems -/

/-- A detection with height 10 at the given center y, left x and center x. -/
def mkDet (t : String) (y xl xc : ℤ) : Detection :=
  { text := t, confidence := ⟨9, 10⟩, y_center := ⟨y, 1⟩, y_top := ⟨y - 5, 1⟩,
    y_bottom := ⟨y + 5, 1⟩, x_left := ⟨xl, 1⟩, x_center := ⟨xc, 1⟩,
    height := ⟨10, 1⟩ }

/-- An oracle on which every detector call raises. -/
def zOracleEmpty : ZoneOracle := fun _ _ => none

/-- An oracle on which every detector call succeeds with no detections. -/
def zOracleFail : ZoneOracle := fun _ _ => some []

/-- Page for C6: quantity header at x = 900, one product row whose two digit
tokens both sit outside the tolerance window of 0.1 times the width 1000. -/
def c6Details : List Detection :=
  [mkDet "CANTIDAD" 100 880 900, mkDet "4817532" 200 100 130,
   mkDet "WIRELESS" 200 250 290, mkDet "NIU" 200 600 615,
   mkDet "5" 200 700 705, mkDet "7" 200 750 755]

/-- C6: the claim says that with quantity_x known and no digit token within
page_width times 0.1 of it, the LAST unassigned 1-3 digit token is the
fallback (as the source's own inline comment promises).  The code's fallback
branch assigns only when the quantity is still unset, so the FIRST such token
wins: on a row with out-of-window digit tokens 5 then 7 the extracted
quantity is 5, not the 7 the claim requires. -/
theorem C6_quantity_fallback_bug :
    extractProductosFromTable c6Details 1000 none zOracleEmpty =
      [⟨"1", "4817532", "WIRELESS", "NIU", "5"⟩] ∧ ("5" : String) ≠ "7" := by
  constructor <;> decide

/-! ## The secondary quantity pass (C7) -/

theorem innerScan_eq_find (texts : List String) :
    innerScan texts = (texts.map pyStrip).find? matchQty := by
  induction texts with
  | nil => rfl
  | cons t ts ih =>
    simp only [innerScan, List.map, List.find?]
    cases h : matchQty (pyStrip t) with
    | true => simp [h]
    | false => simp [h, ih]

theorem scanCode_eq_spec (oracle : ZoneOracle) (zq : ZoneQuery) :
    ∀ l : List BinStrategy,
      scanCode oracle zq l = l.findSome? (fun st =>
        (oracle zq st).bind fun texts => (texts.map pyStrip).find? matchQty) := by
  intro l
  induction l with
  | nil => rfl
  | cons st rest ih =>
    simp only [scanCode, List.findSome?_cons]
    cases horacle : oracle zq st with
    | none => simpa using ih
    | some texts =>
      simp only [Option.bind]
      rw [← innerScan_eq_find texts]
      cases hscan : innerScan texts with
      | none => exact ih
      | some t => rfl

theorem innerScan_qty {texts : List String} {t : String}
    (h : innerScan texts = some t) : matchQty t = true := by
  induction texts with
  | nil => exact absurd h (by simp [innerScan])
  | cons x xs ih =>
    simp only [innerScan] at h
    by_cases hx : matchQty (pyStrip x) = true
    · rw [if_pos hx] at h
      cases h
      exact hx
    · rw [if_neg hx] at h
      exact ih h

theorem scanCode_qty {oracle : ZoneOracle} {zq : ZoneQuery} {t : String} :
    ∀ {l : List BinStrategy}, scanCode oracle zq l = some t → matchQty t = true := by
  intro l
  induction l with
  | nil => intro h; exact absurd h (by simp [scanCode])
  | cons st rest ih =>
    intro h
    cases horacle : oracle zq st with
    | none =>
      simp only [scanCode, horacle] at h
      exact ih h
    | some texts =>
      simp only [scanCode, horacle] at h
      cases hscan : innerScan texts with
      | none =>
        simp only [hscan] at h
        exact ih h
      | some t' =>
        simp only [hscan, Option.some.injEq] at h
        subst h
        exact innerScan_qty hscan

theorem ocrCantidadZone_qty {img : ImageInfo} {oracle : ZoneOracle}
    {row : List Detection} {cx : Q} {wid : ℕ} {t : String}
    (h : ocrCantidadZone img oracle row cx wid = some t) : matchQty t = true := by
  cases row with
  | nil => simp [ocrCantidadZone] at h
  | cons r0 rs =>
    simp only [ocrCantidadZone] at h
    split at h
    · exact absurd h (by simp)
    · exact scanCode_qty h

theorem matchQty_truthy {t : String} (h : matchQty t = true) :
    optTruthy (some t) = true := by
  simp only [matchQty, Bool.and_eq_true, decide_eq_true_eq] at h
  have hlen : 1 ≤ t.toList.length := h.1.1
  show (!t.toList.isEmpty) = true
  cases hl : t.toList with
  | nil => rw [hl] at hlen; exact absurd hlen (by simp)
  | cons c cs => rfl

/-- C7: for a matched row whose quantity is unresolved after the token pass
and whose quantity anchor is known (and nonzero, per the source's truthiness
test), the extractor runs the bounded secondary pass: the crop request is
issued with the 3x upscale, the four binarization strategies are consulted in
the fixed order otsu, adaptive, fixed mid-level, none, stopping at the first
1-3 digit result, and if everything fails the quantity is the literal "1".
The first conjunct is the refinement of the source's strategy loop to the
spec-worded first-hit scan; the second pins the emitted quantity to the
zone result with its default. -/
theorem C7_secondary_quantity_pass :
    (∀ (oracle : ZoneOracle) (zq : ZoneQuery),
      scanCode oracle zq strategyOrder = specZoneScan oracle zq) ∧
    (∀ (cxv : Q) (wid : ℕ) (img : ImageInfo) (oracle : ZoneOracle) (n : ℕ)
        (row : List Detection),
      optTruthy (rowState (some cxv) wid row).codigo = true →
      optTruthy (rowState (some cxv) wid row).unidad = true →
      optTruthy (rowState (some cxv) wid row).cantidad = false →
      Q.veq cxv (Q.ofInt 0) = false →
      (processRow (some cxv) wid (some img) oracle n row).zoneUsed = true ∧
      Option.map LineItem.cantidad
          (processRow (some cxv) wid (some img) oracle n row).item
        = some ((ocrCantidadZone img oracle row cxv wid).getD "1")) := by
  constructor
  · intro oracle zq
    exact scanCode_eq_spec oracle zq strategyOrder
  · intro cxv wid img oracle n row hcod huni hcant hveq
    constructor
    · simp only [processRow, hcod, huni, hcant, hveq, Bool.and_self,
        Bool.not_false, if_true]
    · simp only [processRow, hcod, huni, hcant, hveq, Bool.and_self,
        Bool.not_false, if_true]
      cases hzone : ocrCantidadZone img oracle row cxv wid with
      | none => simp [hzone, optTruthy]
      | some t =>
        have ht := matchQty_truthy (ocrCantidadZone_qty hzone)
        simp [hzone, ht]

def c7Row : List Detection :=
  [mkDet "001723" 200 100 130, mkDet "HEADSET" 200 250 290, mkDet "NIU" 200 600 615]

def c7Img : ImageInfo := ⟨1000⟩

/-- Witness for C7: a row with code and unit but no digit token, the anchor at
x = 900, and an oracle on which all four strategies return nothing, yields the
default quantity "1" with the secondary pass having run. -/
theorem C7_secondary_quantity_pass_witness :
    (processRow (some ⟨900, 1⟩) 1000 (some c7Img) zOracleFail 0 c7Row).zoneUsed = true ∧
    Option.map LineItem.cantidad
        (processRow (some ⟨900, 1⟩) 1000 (some c7Img) zOracleFail 0 c7Row).item
      = some "1" := by
  have h := C7_secondary_quantity_pass.2 ⟨900, 1⟩ 1000 c7Img zOracleFail 0 c7Row
    (by decide) (by decide) (by decide) (by decide)
  refine ⟨h.1, ?_⟩
  rw [h.2]
  decide

/-! ## Header search (C8) -/

/-- Page for C8: a unit-of-measure header token but no quantity keyword, with
a complete product row below it. -/
def c8Details : List Detection :=
  [mkDet "U/M" 100 600 615, mkDet "4817532" 200 100 130,
   mkDet "WIRELESS" 200 250 290, mkDet "NIU" 200 600 615, mkDet "5" 200 700 705]

/-- C8 counterexample: the claim says the coordinate-based extractor falls
back to a unit-of-measure header (or a number-and-code pair) when the
quantity keyword is absent, returning no items only when no header is found
by any of these.  On a page with a unit-of-measure header and a valid product
row the extractor nevertheless returns no items: its header search knows only
the quantity keyword. -/
theorem C8_header_fallback_counterexample :
    extractProductosFromTable c8Details 1000 none zOracleEmpty = [] ∧
    (∃ d ∈ c8Details, strContains (pyUpper d.text) "U/M" = true) ∧
    rowHasCodigo [mkDet "4817532" 200 100 130, mkDet "WIRELESS" 200 250 290,
      mkDet "NIU" 200 600 615, mkDet "5" 200 700 705] = true := by
  refine ⟨?_, ?_, ?_⟩ <;> decide

/-- C8 amended: the coordinate-based extractor's header search looks only for
the case-insensitive quantity keyword and returns no items whenever no
detection contains it; the unit-of-measure and number-and-code fallbacks
belong to the flat-text extractor, and when the flat extractor finds no
header at all it starts scanning at line zero instead of returning no
items. -/
theorem C8_header_search_amended :
    (∀ (details : List Detection) (wid : ℕ) (img : Option ImageInfo)
        (oracle : ZoneOracle),
      (∀ d ∈ details, strContains (pyUpper d.text) "CANTIDAD" = false ∧
        strContains (pyUpper d.text) "CANT" = false) →
      extractProductosFromTable details wid img oracle = []) ∧
    (∀ lines : List String,
      (∀ l ∈ lines, strContains (pyUpper l) "CANTIDAD" = false) →
      (∀ l ∈ lines, strContains (pyUpper l) "U/M" = false ∧
        (strContains (pyUpper l) "NRO" = false ∨
         strContains (pyUpper l) "COD" = false)) →
      flatStartIdx lines = 0) := by
  constructor
  · intro details wid img oracle h
    have hnone : findHeaderY (sortByY details) = none := by
      rw [findHeaderY, List.findSome?_eq_none_iff]
      intro d hd
      have hd' : d ∈ details := (mem_stableSort _ _ _).mp hd
      rw [(h d hd').1, (h d hd').2]
      rfl
    simp only [extractProductosFromTable, hnone]
    split
    · rfl
    · rfl
  · intro lines h1 h2
    unfold flatStartIdx
    have e1 : lines.findIdx? (fun l => strContains (pyUpper l) "CANTIDAD") = none := by
      rw [List.findIdx?_eq_none_iff]
      intro l hl
      exact h1 l hl
    have e2 : lines.findIdx? (fun l =>
        strContains (pyUpper l) "U/M" ||
        (strContains (pyUpper l) "NRO" && strContains (pyUpper l) "COD")) = none := by
      rw [List.findIdx?_eq_none_iff]
      intro l hl
      rw [(h2 l hl).1]
      rcases (h2 l hl).2 with hno | hco
      · rw [hno]
        rfl
      · rw [hco]
        simp
    rw [e1, e2]

/-- Witness for C8: the amended statement applied to the unit-of-measure page
and to a header-free flat text. -/
theorem C8_header_search_amended_witness :
    extractProductosFromTable c8Details 1000 none zOracleEmpty = [] ∧
    flatStartIdx ["hello line", "world line"] = 0 := by
  constructor
  · exact C8_header_search_amended.1 c8Details 1000 none zOracleEmpty (by decide)
  · exact C8_header_search_amended.2 ["hello line", "world line"] (by decide) (by decide)

/-! ## Unit-required invariant (C9) -/

/-- Any unit the row parse records comes from the fixed abbreviation set. -/
def unidadOk (st : RowParse) : Prop :=
  ∀ u, st.unidad = some u → u ∈ unitsList

/-- The second chain either leaves the unit untouched or records the token as
a member of the unit set. -/
theorem secondChain_unidad_eq (cx : Option Q) (wid : ℕ) (st : RowParse)
    (text : String) (xPos : Q) :
    (secondChain cx wid st text xPos).unidad = st.unidad ∨
    (unitsList.contains (pyUpper text) = true ∧
     (secondChain cx wid st text xPos).unidad = some (pyUpper text)) := by
  unfold secondChain
  split
  · exact Or.inr ⟨by assumption, rfl⟩
  · repeat' split
    all_goals exact Or.inl rfl

/-- The token step either leaves the unit untouched or records the stripped
token as a member of the unit set. -/
theorem parseToken_unidad_eq (cx : Option Q) (wid : ℕ) (st : RowParse)
    (d : Detection) :
    (parseToken cx wid st d).unidad = st.unidad ∨
    (unitsList.contains (pyUpper (pyStrip d.text)) = true ∧
     (parseToken cx wid st d).unidad = some (pyUpper (pyStrip d.text))) := by
  have hsc : ∀ st' : RowParse, st'.unidad = st.unidad →
      (secondChain cx wid st' (pyStrip d.text) d.x_center).unidad = st.unidad ∨
      (unitsList.contains (pyUpper (pyStrip d.text)) = true ∧
       (secondChain cx wid st' (pyStrip d.text) d.x_center).unidad
         = some (pyUpper (pyStrip d.text))) := by
    intro st' hst'
    rcases secondChain_unidad_eq cx wid st' (pyStrip d.text) d.x_center with
      heq | ⟨hc, heq⟩
    · exact Or.inl (heq.trans hst')
    · exact Or.inr ⟨hc, heq⟩
  simp only [parseToken]
  split
  · exact hsc _ rfl
  · split
    · exact hsc _ rfl
    · split
      · split
        · exact Or.inl rfl
        · exact hsc _ rfl
      · exact hsc _ rfl

theorem parseToken_unidadOk {st : RowParse} (cx : Option Q) (wid : ℕ)
    (d : Detection) (h : unidadOk st) : unidadOk (parseToken cx wid st d) := by
  intro u hu
  rcases parseToken_unidad_eq cx wid st d with heq | ⟨hc, heq⟩
  · rw [heq] at hu
    exact h u hu
  · rw [heq] at hu
    cases hu
    exact List.mem_of_elem_eq_true hc

theorem rowState_unidadOk (cx : Option Q) (wid : ℕ) (row : List Detection) :
    unidadOk (rowState cx wid row) := by
  unfold rowState
  suffices hgen : ∀ (l : List Detection) (st : RowParse), unidadOk st →
      unidadOk (l.foldl (parseToken cx wid) st) by
    exact hgen row ⟨none, [], none, none⟩ (fun u hu => by cases hu)
  intro l
  induction l with
  | nil => intro st h; exact h
  | cons d ds ih =>
    intro st h
    exact ih _ (parseToken_unidadOk cx wid d h)

theorem optTruthy_some_ne {s : String} (h : optTruthy (some s) = true) : s ≠ "" := by
  unfold optTruthy at h
  intro hs
  subst hs
  simp at h

theorem processRow_item_props {cx : Option Q} {wid : ℕ} {img : Option ImageInfo}
    {oracle : ZoneOracle} {n : ℕ} {row : List Detection} {it : LineItem}
    (h : (processRow cx wid img oracle n row).item = some it) :
    it.unidad ∈ unitsList ∧ it.codigo ≠ "" := by
  simp only [processRow] at h
  split at h
  · rename_i hguard0
    have hguard : optTruthy (rowState cx wid row).codigo = true ∧
        optTruthy (rowState cx wid row).unidad = true := by
      simpa [Bool.and_eq_true] using hguard0
    simp only [Option.some.injEq] at h
    subst h
    constructor
    · have huni := hguard.2
      cases hu : (rowState cx wid row).unidad with
      | none => rw [hu] at huni; simp [optTruthy] at huni
      | some u =>
        have := rowState_unidadOk cx wid row u hu
        simpa [hu] using this
    · have hcod := hguard.1
      cases hc : (rowState cx wid row).codigo with
      | none => rw [hc] at hcod; simp [optTruthy] at hcod
      | some c =>
        rw [hc] at hcod
        simpa [hc] using optTruthy_some_ne hcod
  · exact absurd h (by simp)

theorem processRows_props (cx : Option Q) (wid : ℕ) (img : Option ImageInfo)
    (oracle : ZoneOracle) :
    ∀ (rows : List (List Detection)) (acc : List LineItem),
      (∀ p ∈ acc, p.unidad ∈ unitsList ∧ p.codigo ≠ "") →
      ∀ p ∈ processRows cx wid img oracle rows acc,
        p.unidad ∈ unitsList ∧ p.codigo ≠ "" := by
  intro rows
  induction rows with
  | nil => intro acc hacc p hp; exact hacc p hp
  | cons row rest ih =>
    intro acc hacc p hp
    simp only [processRows] at hp
    split at hp
    · rename_i hcod
      cases hitem : (processRow cx wid img oracle acc.length (sortByX row)).item with
      | some item =>
        rw [hitem] at hp
        refine ih (acc ++ [item]) ?_ p hp
        intro q hq
        rcases List.mem_append.mp hq with hq1 | hq1
        · exact hacc q hq1
        · have : q = item := by simpa using hq1
          subst this
          exact processRow_item_props hitem
      | none =>
        rw [hitem] at hp
        exact ih acc hacc p hp
    · split at hp
      · exact hacc p hp
      · exact ih acc hacc p hp

/-- Any unit kept out of a row's tokens leaves the parse without a unit. -/
theorem parseToken_no_unit {st : RowParse} (cx : Option Q) (wid : ℕ)
    (d : Detection) (h : unitsList.contains (pyUpper (pyStrip d.text)) = false)
    (hst : st.unidad = none) : (parseToken cx wid st d).unidad = none := by
  rcases parseToken_unidad_eq cx wid st d with heq | ⟨hc, _⟩
  · rw [heq, hst]
  · rw [h] at hc
    cases hc

theorem rowState_no_unit (cx : Option Q) (wid : ℕ) (row : List Detection)
    (h : ∀ d ∈ row, unitsList.contains (pyUpper (pyStrip d.text)) = false) :
    (rowState cx wid row).unidad = none := by
  unfold rowState
  suffices hgen : ∀ (l : List Detection) (st : RowParse),
      (∀ d ∈ l, unitsList.contains (pyUpper (pyStrip d.text)) = false) →
      st.unidad = none → (l.foldl (parseToken cx wid) st).unidad = none by
    exact hgen row ⟨none, [], none, none⟩ h rfl
  intro l
  induction l with
  | nil => intro st _ hst; exact hst
  | cons d ds ih =>
    intro st hl hst
    exact ih _ (fun e he => hl e (by simp [he]))
      (parseToken_no_unit cx wid d (hl d (by simp)) hst)

/-- C9: every line item the coordinate-based extractor emits carries a unit
drawn from the fixed abbreviation set and a nonempty code; and a row with a
code pattern but no token from the unit set produces no item at all, its
secondary quantity pass never running. -/
theorem C9_unit_and_code_invariant :
    (∀ (details : List Detection) (wid : ℕ) (img : Option ImageInfo)
        (oracle : ZoneOracle),
      ∀ p ∈ extractProductosFromTable details wid img oracle,
        p.unidad ∈ unitsList ∧ p.codigo ≠ "") ∧
    (∀ (cx : Option Q) (wid : ℕ) (img : Option ImageInfo) (oracle : ZoneOracle)
        (n : ℕ) (row : List Detection),
      rowHasCodigo row = true →
      (∀ d ∈ row, unitsList.contains (pyUpper (pyStrip d.text)) = false) →
      processRow cx wid img oracle n row = ⟨none, false⟩) := by
  constructor
  · intro details wid img oracle p hp
    simp only [extractProductosFromTable] at hp
    split at hp
    · exact absurd hp (by simp)
    · split at hp
      · exact absurd hp (by simp)
      · exact processRows_props _ _ _ _ _ [] (by simp) p hp
  · intro cx wid img oracle n row _ hnounit
    simp only [processRow, rowState_no_unit cx wid row hnounit]
    simp [optTruthy]

def c9Row : List Detection :=
  [mkDet "4817532" 200 100 130, mkDet "WIRELESS" 200 250 290]

/-- Witness for C9: a row with a valid numeric code and no unit token yields
no item and no secondary pass. -/
theorem C9_unit_and_code_invariant_witness :
    processRow none 1000 none zOracleEmpty 0 c9Row = ⟨none, false⟩ :=
  C9_unit_and_code_invariant.2 none 1000 none zOracleEmpty 0 c9Row
    (by decide) (by decide)

/-! ## Flat extractor invariants (C10) -/

/-- The invariant the flat loop maintains: pairwise distinct codes and
descriptions longer than 3 characters. -/
def flatInv (acc : List LineItem) : Prop :=
  (acc.map LineItem.codigo).Nodup ∧ ∀ p ∈ acc, 3 < p.nombre.length

theorem tryEmit_inv {acc : List LineItem} (c d u q : String) (h : flatInv acc) :
    flatInv (tryEmit acc c d u q) := by
  unfold tryEmit
  split
  · rename_i hcond0
    have hcond : decide (3 < d.length) = true ∧
        (!acc.any (fun p => p.codigo == c)) = true := by
      simpa [Bool.and_eq_true] using hcond0
    have hlen : 3 < d.length := of_decide_eq_true hcond.1
    have hnotin : c ∉ acc.map LineItem.codigo := by
      have hany := hcond.2
      rw [Bool.not_eq_eq_eq_not, Bool.not_true] at hany
      intro hmem
      obtain ⟨p, hp, hpc⟩ := List.mem_map.mp hmem
      have := List.any_eq_false.mp hany p hp
      rw [hpc] at this
      simp at this
    constructor
    · rw [List.map_append]
      rw [List.nodup_append]
      refine ⟨h.1, by simp, ?_⟩
      intro x hx
      simp only [List.map_cons, List.map_nil, List.mem_singleton]
      intro hxc
      subst hxc
      exact hnotin hx
    · intro p hp
      rcases List.mem_append.mp hp with h1 | h1
      · exact h.2 p h1
      · have : p = ⟨toString (acc.length + 1), c, d, u, q⟩ := by simpa using h1
        subst this
        exact hlen
  · exact h

theorem flatStep_inv {acc : List LineItem} (ms : FlatMatchers) (line : String)
    (h : flatInv acc) : flatInv (flatStep ms acc line) := by
  unfold flatStep
  cases ms.p0 line with
  | some g =>
    obtain ⟨g1, g2, g3, g4⟩ := g
    exact tryEmit_inv _ _ _ _ h
  | none =>
    cases ms.p1 line with
    | some g =>
      obtain ⟨g1, g2, g3, g4⟩ := g
      exact tryEmit_inv _ _ _ _ h
    | none =>
      cases ms.p2 line with
      | some g =>
        obtain ⟨g1, g2, g3, g4⟩ := g
        exact tryEmit_inv _ _ _ _ h
      | none =>
        cases ms.p3 line with
        | some g =>
          obtain ⟨g1, g2, g3⟩ := g
          exact tryEmit_inv _ _ _ _ h
        | none => exact h

theorem flatLoop_inv (ms : FlatMatchers) :
    ∀ (lines : List String) (acc : List LineItem), flatInv acc →
      flatInv (flatLoop ms lines acc) := by
  intro lines
  induction lines with
  | nil => intro acc h; exact h
  | cons l rest ih =>
    intro acc h
    simp only [flatLoop]
    split
    · exact ih acc h
    · split
      · exact h
      · exact ih _ (flatStep_inv ms _ h)

/-- C10: the flat-text fallback extractor never emits two items with the same
code (a line whose code equals an already emitted one adds nothing) and never
emits an item whose description has 3 or fewer characters.  The four per-line
regex cascades are abstracted as arbitrary matchers, so the invariant holds
for every possible match outcome, the true regexes included. -/
theorem C10_flat_extractor_invariants :
    ∀ (ms : FlatMatchers) (text : String),
      ((extractProductosFlat ms text).map LineItem.codigo).Nodup ∧
      ∀ p ∈ extractProductosFlat ms text, 3 < p.nombre.length := by
  intro ms text
  exact flatLoop_inv ms _ [] ⟨by simp, by simp⟩

/-- Matchers for the C10 witness: only the numeric-code pattern fires, always
with the same capture groups. -/
def c10Matchers : FlatMatchers :=
  { p0 := fun _ => none,
    p1 := fun _ => some ("4817532", "WIDGET BLUE", "NIU", "2"),
    p2 := fun _ => none,
    p3 := fun _ => none }

/-- Witness for C10: two identical product lines produce one item (the
duplicate code adds nothing) and the code list of the result is duplicate
free by the theorem. -/
theorem C10_flat_extractor_invariants_witness :
    ((extractProductosFlat c10Matchers "4817532 WIDGET BLUE NIU 2\n4817532 WIDGET BLUE NIU 2").map
      LineItem.codigo).Nodup ∧
    extractProductosFlat c10Matchers "4817532 WIDGET BLUE NIU 2\n4817532 WIDGET BLUE NIU 2"
      = [⟨"1", "4817532", "WIDGET BLUE", "NIU", "2"⟩] := by
  constructor
  · exact (C10_flat_extractor_invariants c10Matchers _).1
  · decide

/-! ## Text cleanup (clean_text, lines 499-516) -/

/-- The accented characters of this document family, for the word class. -/
def accentedChar (c : Char) : Bool :=
  c = 'á' || c = 'é' || c = 'í' || c = 'ó' || c = 'ú' || c = 'ñ' ||
  c = 'Á' || c = 'É' || c = 'Í' || c = 'Ó' || c = 'Ú' || c = 'Ñ' ||
  c = 'ü' || c = 'Ü'

/-- A word character (letters, digits, underscore, plus the accented letters
over the alphabet this pipeline handles). -/
def pyWordChar (c : Char) : Bool := c.isAlphanum || c = '_' || accentedChar c

/-- Characters the artifact filter of line 504 keeps. -/
def cleanKeep (c : Char) : Bool :=
  pyWordChar c || pySpace c || c = '-' || c = '.' || c = ',' || c = ';' ||
  c = ':' || c = '(' || c = ')' || c = '/' || c = '#' || c = '@' ||
  accentedChar c || c = '\n'

/-- Collapse runs of horizontal whitespace (whitespace other than newline)
into single spaces (line 507). -/
def collapseHW : Bool → List Char → List Char
  | _, [] => []
  | prev, c :: cs =>
    if pySpace c && !(c = '\n') then
      if prev then collapseHW true cs else ' ' :: collapseHW true cs
    else c :: collapseHW false cs

/-- Collapse a newline, optional whitespace, newline sequence into a single
newline, resuming after each replacement (line 510): on a newline followed by
a whitespace run containing another newline, everything through the last
newline of the run becomes one newline. -/
def collapseBlankAux : ℕ → List Char → List Char
  | 0, l => l
  | _, [] => []
  | fuel + 1, c :: cs =>
    if c = '\n' then
      let run := cs.takeWhile pySpace
      if run.any (fun x => x = '\n') then
        let k := run.length - (run.reverse.takeWhile (fun x => !(x = '\n'))).length
        '\n' :: collapseBlankAux fuel (cs.drop k)
      else c :: collapseBlankAux fuel cs
    else c :: collapseBlankAux fuel cs

def collapseBlank (l : List Char) : List Char := collapseBlankAux l.length l

/-- clean_text, lines 499-516: filter artifacts, collapse horizontal
whitespace, collapse blank lines, strip every line, strip the whole. -/
def cleanText (s : String) : String :=
  let l1 := s.toList.filter cleanKeep
  let l2 := collapseHW false l1
  let l3 := collapseBlank l2
  let lines := splitLinesAux l3 []
  pyStrip (String.intercalate "\n" (lines.map pyStrip))

/-! ## Text signature detection (detect_firma, lines 770-794) -/

/-- The name class of the signature patterns: ASCII letters, the Spanish
accented letters of the source's class, and whitespace. -/
def nombreChar (c : Char) : Bool :=
  c.isAlpha || c = 'á' || c = 'é' || c = 'í' || c = 'ó' || c = 'ú' ||
  c = 'ñ' || c = 'Á' || c = 'É' || c = 'Í' || c = 'Ó' || c = 'Ú' ||
  c = 'Ñ' || pySpace c

/-- After a label: an optional colon, then a nonempty run of name-class
characters; the captured name is the run stripped (regex-equivalent because
whitespace belongs to the class). -/
def firmaTail (s : List Char) : Option String :=
  let s1 := match s with
            | ':' :: rest => rest
            | other => other
  let run := s1.takeWhile nombreChar
  if run.isEmpty then none else some (pyStrip ⟨run⟩)

/-- Leftmost search for one of the label spellings followed by the tail. -/
def searchFirma (labels : List (List Char)) : List Char → Option String
  | [] => none
  | c :: cs =>
    match labels.findSome? (fun L =>
        if L.isPrefixOf (c :: cs) then firmaTail ((c :: cs).drop L.length)
        else none) with
    | some r => some r
    | none => searchFirma labels cs

/-- The received-by pattern: the label, mandatory whitespace, the word por,
then the usual tail. -/
def matchRecibidoPorAt (s : List Char) : Option String :=
  ["Recibido".toList, "recibido".toList].findSome? fun L =>
    if L.isPrefixOf s then
      let rest := s.drop L.length
      let w := rest.takeWhile pySpace
      if w.isEmpty then none
      else
        let rest2 := rest.drop w.length
        if "por".toList.isPrefixOf rest2 then firmaTail (rest2.drop 3) else none
    else none

def searchRecibidoPor : List Char → Option String
  | [] => none
  | c :: cs =>
    match matchRecibidoPorAt (c :: cs) with
    | some r => some r
    | none => searchRecibidoPor cs

/-- The source's length gate: a matched name counts only beyond 2
characters; a shorter one falls through to the next pattern. -/
def checkNombre : Option String → Option String
  | some n => if 2 < n.length then some n else none
  | none => none

/-- detect_firma, lines 770-794: the four labelled patterns in order, each
a leftmost search, then the bare keyword fallback. -/
def detectFirma (text : String) : Bool × Option String :=
  let l := text.toList
  match checkNombre (searchFirma ["Firma".toList, "firma".toList] l) with
  | some n => (true, some n)
  | none =>
  match checkNombre (searchRecibidoPor l) with
  | some n => (true, some n)
  | none =>
  match checkNombre (searchFirma
      ["Recibi".toList, "recibi".toList, "Recibí".toList, "recibí".toList] l) with
  | some n => (true, some n)
  | none =>
  match checkNombre (searchFirma ["Conforme".toList, "conforme".toList] l) with
  | some n => (true, some n)
  | none =>
    if ["Firmado", "firmado", "Sellado", "sellado", "Recibido", "recibido"].any
        (fun k => strContains text k) then (true, none)
    else (false, none)

/-! ## The whole-document pipeline (process_document, lines 1039-1170)

The environment carries the per-page detector outcomes (a fault flag models
a raised call, caught where the source catches it), the opaque zone OCR and
flat-pattern oracles, the field-extraction cascades as oracles over the
cleaned text, and a fault marker standing for an unhandled exception in the
field-extraction phase (the outer handler of lines 1166-1170 catches it). -/

structure DocResult where
  numero_guia : Option String
  fecha_documento : Option String
  proveedor : Option String
  direccion_destino : Option String
  direccion_origen : Option String
  productos : List String
  codigos_producto : List String
  cantidades : List String
  unidad_medida : List String
  firmado : Bool
  firma_confianza : Q
  nombre_firmante : Option String
  observaciones : Option String
  numero_paginas : ℕ
  codigo_interno : Option String
  transportista : Option String
  dni_conductor : Option String
  ruc : Option String
  direccion_remitente : Option String
  placa : Option String
  destinatario_contacto : Option String
  destinatario_telefono : Option String
  raw_text : String
  ocr_status : String
  campos_faltantes : List String
  procesado_en : String
  deriving DecidableEq, Repr

/-- One decoded page: its pixel dimensions, the detector outcome (fault means
the engine raised; extract_text_from_image catches and yields empty output),
and the image-signature outcome (fault caught the same way). -/
structure PageData where
  width : ℕ
  height : ℤ
  detFault : Bool
  details : List Detection
  firmaFault : Bool
  firmaSig : Bool × Q
  deriving DecidableEq, Repr

structure OCREnv where
  pages : List PageData
  zoneOCR : ZoneOracle
  flat : FlatMatchers
  fNumeroGuia : String → Option String
  fFecha : String → Option String
  fProveedor : String → Option String
  fPuntoLlegada : String → Option String
  fDireccion : String → Option String
  fPuntoPartida : String → Option String
  fRuc : String → Option String
  fTransportista : String → Option String
  fDniConductor : String → Option String
  fPlaca : String → Option String
  fObservaciones : String → Option String
  fCodigoInterno : String → Option String
  fDestinatarioContacto : String → Option String
  fDestinatarioTelefono : String → Option String
  extractFault : Option String
  now : String

/-- The result dict as initialised at lines 1046-1073. -/
def baseResult (now : String) : DocResult :=
  { numero_guia := none, fecha_documento := none, proveedor := none,
    direccion_destino := none, direccion_origen := none, productos := [],
    codigos_producto := [], cantidades := [], unidad_medida := [],
    firmado := false, firma_confianza := ⟨0, 1⟩, nombre_firmante := none,
    observaciones := none, numero_paginas := 0, codigo_interno := none,
    transportista := none, dni_conductor := none, ruc := none,
    direccion_remitente := none, placa := none, destinatario_contacto := none,
    destinatario_telefono := none, raw_text := "", ocr_status := "success",
    campos_faltantes := [], procesado_en := now }

/-- extract_text_from_image's text for one page (empty on a caught fault). -/
def pageTextOf (p : PageData) : String :=
  if p.detFault then "" else pageText p.details

/-- extract_text_from_image's details for one page (empty on a caught
fault). -/
def pageDetailsOf (p : PageData) : List Detection :=
  if p.detFault then [] else p.details

/-- detect_firma_en_imagen's outcome for one page (false and zero on a caught
fault). -/
def pageFirmaOf (p : PageData) : Bool × Q :=
  if p.firmaFault then (false, ⟨0, 1⟩) else p.firmaSig

/-- The per-page image-signature aggregation of lines 1100-1103: OR for
presence, Python max over the confidences of the detected pages. -/
def firmaFold (pages : List PageData) : Bool × Q :=
  pages.foldl
    (fun acc p =>
      let s := pageFirmaOf p
      if s.1 then (true, Q.pyMax acc.2 s.2) else acc)
    (false, ⟨0, 1⟩)

def allTextOf (env : OCREnv) : List String := env.pages.map pageTextOf

/-- The cleaned concatenated text every field extractor runs on. -/
def cleanedTextOf (env : OCREnv) : String :=
  cleanText (String.intercalate "\n" (allTextOf env))

/-- Python's a-or-b over optional strings. -/
def pyOr (a b : Option String) : Option String := if optTruthy a then a else b

/-- process_document, lines 1039-1170. -/
def processDocument (env : OCREnv) : DocResult :=
  let r0 := { baseResult env.now with numero_paginas := env.pages.length }
  if env.pages.isEmpty then
    { r0 with ocr_status := "error",
              campos_faltantes := ["No se pudo leer el archivo"] }
  else
    let allDetails := env.pages.flatMap pageDetailsOf
    let imageWidth := env.pages.foldl (fun acc p => max acc p.width) 0
    let firmaAgg := firmaFold env.pages
    let cleaned := cleanedTextOf env
    let r1 := { r0 with raw_text := cleaned }
    match env.extractFault with
    | some e => { r1 with ocr_status := "error", campos_faltantes := [e] }
    | none =>
      let firstImage : Option ImageInfo :=
        env.pages.head?.map (fun p => ⟨p.height⟩)
      let productosT :=
        extractProductosFromTable allDetails imageWidth firstImage env.zoneOCR
      let productos :=
        if productosT.isEmpty then extractProductosFlat env.flat cleaned
        else productosT
      let firmaTexto := detectFirma cleaned
      let guia := env.fNumeroGuia cleaned
      let fecha := env.fFecha cleaned
      let faltantes :=
        (if optTruthy guia then [] else ["numero_guia"]) ++
        (if optTruthy fecha then [] else ["fecha_documento"])
      { r1 with
        numero_guia := guia,
        fecha_documento := fecha,
        proveedor := env.fProveedor cleaned,
        direccion_destino := pyOr (env.fPuntoLlegada cleaned) (env.fDireccion cleaned),
        direccion_origen := env.fPuntoPartida cleaned,
        ruc := env.fRuc cleaned,
        transportista := env.fTransportista cleaned,
        dni_conductor := env.fDniConductor cleaned,
        placa := env.fPlaca cleaned,
        observaciones := env.fObservaciones cleaned,
        codigo_interno := env.fCodigoInterno cleaned,
        productos := productos.map (·.nombre),
        codigos_producto := productos.map (·.codigo),
        cantidades := productos.map (·.cantidad),
        unidad_medida := productos.map (·.unidad),
        destinatario_contacto := env.fDestinatarioContacto cleaned,
        destinatario_telefono := env.fDestinatarioTelefono cleaned,
        firmado := firmaAgg.1 || firmaTexto.1,
        nombre_firmante := firmaTexto.2,
        firma_confianza :=
          if firmaAgg.1 then firmaAgg.2
          else if firmaTexto.1 then ⟨4, 5⟩ else ⟨0, 1⟩,
        campos_faltantes := faltantes,
        ocr_status := if faltantes.isEmpty then "success" else "partial" }

/-! ## Claims about process_document (C1, C2, C5) -/

/-- C2: process_document never raises: decode, detector and image-signature
failures are caught where the source catches them, any unhandled extraction
exception lands in the outer handler, and the caller always receives the full
record with an explicit status among success, partial and error (and the true
page count, assigned before any failure path). -/
theorem C2_no_exception_well_formed :
    ∀ env : OCREnv,
      ((processDocument env).ocr_status = "success" ∨
       (processDocument env).ocr_status = "partial" ∨
       (processDocument env).ocr_status = "error") ∧
      (processDocument env).numero_paginas = env.pages.length := by
  intro env
  constructor
  · simp only [processDocument]
    split
    · exact Or.inr (Or.inr rfl)
    · split
      · exact Or.inr (Or.inr rfl)
      · by_cases hg : optTruthy (env.fNumeroGuia (cleanedTextOf env)) = true
        · by_cases hd : optTruthy (env.fFecha (cleanedTextOf env)) = true
          · exact Or.inl (by simp [hg, hd])
          · simp only [Bool.not_eq_true] at hd
            exact Or.inr (Or.inl (by simp [hg, hd]))
        · simp only [Bool.not_eq_true] at hg
          exact Or.inr (Or.inl (by simp [hg]))
  · simp only [processDocument]
    split
    · rfl
    · split
      · rfl
      · rfl

/-- C1: the status is error exactly on the zero-page and unhandled-exception
paths; otherwise it is partial precisely when the document identifier or the
date is falsy (each falsy one listed in campos_faltantes under its field
name) and success when both are present. -/
theorem C1_status_classification :
    (∀ env : OCREnv, (processDocument env).ocr_status = "error" →
      env.pages = [] ∨ env.extractFault ≠ none) ∧
    (∀ env : OCREnv, env.pages = [] →
      (processDocument env).ocr_status = "error") ∧
    (∀ env : OCREnv, env.extractFault ≠ none →
      (processDocument env).ocr_status = "error") ∧
    (∀ env : OCREnv, env.extractFault = none → env.pages ≠ [] →
      ((processDocument env).ocr_status = "success" ↔
        optTruthy (env.fNumeroGuia (cleanedTextOf env)) = true ∧
        optTruthy (env.fFecha (cleanedTextOf env)) = true) ∧
      ((processDocument env).ocr_status = "partial" ↔
        ¬(optTruthy (env.fNumeroGuia (cleanedTextOf env)) = true ∧
          optTruthy (env.fFecha (cleanedTextOf env)) = true)) ∧
      ("numero_guia" ∈ (processDocument env).campos_faltantes ↔
        optTruthy (env.fNumeroGuia (cleanedTextOf env)) = false) ∧
      ("fecha_documento" ∈ (processDocument env).campos_faltantes ↔
        optTruthy (env.fFecha (cleanedTextOf env)) = false)) := by
  refine ⟨?_, ?_, ?_, ?_⟩
  · intro env h
    by_cases hemp : env.pages.isEmpty = true
    · exact Or.inl (List.isEmpty_iff.mp hemp)
    · cases hfe : env.extractFault with
      | some e => exact Or.inr (by simp [hfe])
      | none =>
        have hemp' : env.pages.isEmpty = false := by
          cases h2 : env.pages.isEmpty
          · rfl
          · exact absurd h2 hemp
        simp only [processDocument, hemp', hfe, Bool.false_eq_true, if_false] at h
        by_cases hg : optTruthy (env.fNumeroGuia (cleanedTextOf env)) = true
        · by_cases hd : optTruthy (env.fFecha (cleanedTextOf env)) = true
          · simp [hg, hd] at h
          · simp only [Bool.not_eq_true] at hd
            simp [hg, hd] at h
        · simp only [Bool.not_eq_true] at hg
          simp [hg] at h
  · intro env hp
    have hemp : env.pages.isEmpty = true := by rw [hp]; rfl
    simp only [processDocument, hemp, if_true]
  · intro env hf
    cases hfe : env.extractFault with
    | none => exact absurd hfe hf
    | some e =>
      simp only [processDocument, hfe]
      split
      · rfl
      · rfl
  · intro env hf hp
    have hemp : env.pages.isEmpty = false := by
      cases hpp : env.pages with
      | nil => exact absurd hpp hp
      | cons a l => rfl
    simp only [processDocument, hemp, hf, Bool.false_eq_true, if_false]
    by_cases hg : optTruthy (env.fNumeroGuia (cleanedTextOf env)) = true
    · by_cases hd : optTruthy (env.fFecha (cleanedTextOf env)) = true
      · simp [hg, hd]
      · simp only [Bool.not_eq_true] at hd
        simp [hg, hd]
    · simp only [Bool.not_eq_true] at hg
      by_cases hd : optTruthy (env.fFecha (cleanedTextOf env)) = true
      · simp [hg, hd]
      · simp only [Bool.not_eq_true] at hd
        simp [hg, hd]

/-- Empty flat matchers for the concrete environments. -/
def noMatchers : FlatMatchers :=
  ⟨fun _ => none, fun _ => none, fun _ => none, fun _ => none⟩

/-- An environment with the given pages and identifier and date oracles; all
other field oracles find nothing. -/
def mkEnv (pages : List PageData) (guia fecha : String → Option String) : OCREnv :=
  { pages := pages, zoneOCR := zOracleEmpty, flat := noMatchers,
    fNumeroGuia := guia, fFecha := fecha,
    fProveedor := fun _ => none, fPuntoLlegada := fun _ => none,
    fDireccion := fun _ => none, fPuntoPartida := fun _ => none,
    fRuc := fun _ => none, fTransportista := fun _ => none,
    fDniConductor := fun _ => none, fPlaca := fun _ => none,
    fObservaciones := fun _ => none, fCodigoInterno := fun _ => none,
    fDestinatarioContacto := fun _ => none,
    fDestinatarioTelefono := fun _ => none,
    extractFault := none, now := "" }

/-- A page whose only text is a signature label with a name, with the given
image-signature signal. -/
def firmaPage (sig : Bool × Q) : PageData :=
  { width := 800, height := 1000, detFault := false,
    details := [mkDet "Firma: Juan Perez" 100 0 50], firmaFault := false,
    firmaSig := sig }

def env1 : OCREnv :=
  mkEnv [firmaPage (false, ⟨0, 1⟩)] (fun _ => some "TT01-001723") (fun _ => none)

/-- Witness for C1: identifier present, date absent, one decoded page: the
status is partial and the date field is listed among the missing fields. -/
theorem C1_status_classification_witness :
    (processDocument env1).ocr_status = "partial" ∧
    "fecha_documento" ∈ (processDocument env1).campos_faltantes := by
  have h := C1_status_classification.2.2.2 env1 rfl (by decide)
  constructor
  · exact h.2.1.mpr (by decide)
  · exact h.2.2.2.mpr (by decide)

def env5 : OCREnv :=
  mkEnv [firmaPage (true, ⟨3, 4⟩)] (fun _ => none) (fun _ => none)

/-- C5 counterexample: on a page carrying both an image signal of confidence
0.75 and a text signal (whose confidence the claim fixes at 0.8), the code
reports confidence 0.75, not the maximum 0.8 of the two signals: the image
signal takes full precedence over the text signal's confidence. -/
theorem C5_signature_confidence_counterexample :
    (processDocument env5).firmado = true ∧
    (detectFirma (cleanedTextOf env5)).1 = true ∧
    (processDocument env5).firma_confianza = ⟨3, 4⟩ ∧
    Q.veq (Q.pyMax ⟨3, 4⟩ ⟨4, 5⟩) ⟨3, 4⟩ = false := by
  refine ⟨?_, ?_, ?_, ?_⟩ <;> decide

/-- C5 amended: presence is still the logical OR of the image and text
signals and the signer name comes from the text signal, but the document
confidence is the Python max over the detected pages' image confidences
whenever any page's image signal fired, else the fixed 0.8 when only the text
signal fired, else 0; on a page with the text signal alone the result is
signed with the captured name and confidence 0.8. -/
theorem C5_signature_combination_amended :
    ∀ env : OCREnv, env.extractFault = none → env.pages ≠ [] →
      (processDocument env).firmado
          = ((firmaFold env.pages).1 || (detectFirma (cleanedTextOf env)).1) ∧
      (processDocument env).nombre_firmante
          = (detectFirma (cleanedTextOf env)).2 ∧
      (processDocument env).firma_confianza =
        (if (firmaFold env.pages).1 then (firmaFold env.pages).2
         else if (detectFirma (cleanedTextOf env)).1 then ⟨4, 5⟩ else ⟨0, 1⟩) := by
  intro env hf hp
  have hemp : env.pages.isEmpty = false := by
    cases hpp : env.pages with
    | nil => exact absurd hpp hp
    | cons a l => rfl
  simp only [processDocument, hemp, hf, Bool.false_eq_true, if_false]
  refine ⟨?_, ?_, ?_⟩ <;> trivial

def env5b : OCREnv :=
  mkEnv [firmaPage (false, ⟨0, 1⟩)] (fun _ => none) (fun _ => none)

/-- Witness for C5: a page whose only relevant text is a signature label
followed by a name and whose image signal is silent yields signed, the name,
and confidence 0.8. -/
theorem C5_signature_combination_amended_witness :
    (processDocument env5b).firmado = true ∧
    (processDocument env5b).firma_confianza = ⟨4, 5⟩ ∧
    (processDocument env5b).nombre_firmante = some "Juan Perez" := by
  have h := C5_signature_combination_amended env5b rfl (by decide)
  refine ⟨?_, ?_, ?_⟩
  · rw [h.1]; decide
  · rw [h.2.2]; decide
  · rw [h.2.1]; decide

end Guia
